import Mathlib

/-!
Verification of the nyancat multi-transport frame-streaming engine.

The development shallowly embeds the parts of the repository that the
claims are about:

* the Telnet option negotiator `parse_telnet_commands` from
  `src/telnet.rs` (bytes are modelled as natural numbers; every buffer
  access is instrumented through `List.getElem?` so that an
  out-of-bounds read would surface as `none`),
* the viewport calculator `RenderSize.new` (the `animation` module is
  not part of the sources; it is modelled from the specification §4.2,
  which coincides with the commented-out computation in
  `src/standalone.rs`, `render_frame`),
* the per-tick frame-index update and the tick loops of the standalone
  and telnet transports (`src/standalone.rs`, `src/telnet.rs`),
* the websocket session's `Init`-state message handling from
  `src/http.rs` (`handle_socket`).
-/

/-- Telnet protocol constant IAC (255), from `src/telnet.rs`. -/
def IAC : Nat := 255

/-- Telnet protocol constant DO (253), from `src/telnet.rs`. -/
def DO : Nat := 253

/-- Telnet protocol constant WILL (251), from `src/telnet.rs`. -/
def WILL : Nat := 251

/-- Telnet protocol constant SGA (3), from `src/telnet.rs`. -/
def SGA : Nat := 3

/-- Telnet protocol constant TTYPE (24), from `src/telnet.rs`. -/
def TTYPE : Nat := 24

/-- Telnet protocol constant NAWS (31), from `src/telnet.rs`. -/
def NAWS : Nat := 31

/-- Telnet protocol constant SB (250), from `src/telnet.rs`. -/
def SB : Nat := 250

/-- Telnet protocol constant SE (240), from `src/telnet.rs`. -/
def SE : Nat := 240

/-- The scan-forward loop
`while i + 1 < data_len && !(data[i] == IAC && data[i + 1] == SE) { i += 1 }`
used inside the sub-negotiation branches of `parse_telnet_commands`
(`src/telnet.rs`).  It returns the number of positions the cursor
advanced, or `none` if an out-of-bounds read were to occur (the guard
makes that impossible, which is proved later). -/
def skipToSE (data : List Nat) (i : Nat) : Option Nat :=
  if _h : i + 1 < data.length then
    match data[i]?, data[i + 1]? with
    | some a, some b =>
      if a = IAC ∧ b = SE then some 0
      else
        match skipToSE data (i + 1) with
        | none => none
        | some d => some (d + 1)
    | _, _ => none
  else
    some 0
termination_by data.length - i
decreasing_by omega

/-- The scanning loop of `parse_telnet_commands` (`src/telnet.rs`,
lines 106-180), translated byte access for byte access.  The cursor
`i`, the in/out parameters `width`/`height` and the `bool` result are
threaded explicitly; the result is `some (complete, width, height)`,
and `none` would signal an out-of-bounds buffer access (proved
impossible later).  The NAWS decode `(b0 <<< 8) ||| b1` mirrors
`((data[i] as u16) << 8) | data[i + 1] as u16`; inputs are `u8`, so no
16-bit overflow is possible and no masking is required. -/
def parseLoop (data : List Nat) (i width height : Nat) : Option (Bool × Nat × Nat) :=
  if _hi : i < data.length then
    match data[i]? with
    | none => none
    | some b =>
      if b = IAC ∧ i + 1 < data.length then
        match data[i + 1]? with
        | none => none
        | some c =>
          if c = SB then
            if data.length ≤ i + 2 then
              some (false, width, height)
            else
              match data[i + 2]? with
              | none => none
              | some opt =>
                if opt = NAWS then
                  if i + 3 + 4 ≤ data.length then
                    match data[i + 3]?, data[i + 4]?, data[i + 5]?, data[i + 6]? with
                    | some b0, some b1, some b2, some b3 =>
                      match skipToSE data (i + 7) with
                      | none => none
                      | some _ => some (true, (b0 <<< 8) ||| b1, (b2 <<< 8) ||| b3)
                    | _, _, _, _ => none
                  else
                    parseLoop data (i + 3) width height
                else if opt = TTYPE then
                  match skipToSE data (i + 3) with
                  | none => none
                  | some d =>
                    if i + 3 + d + 1 < data.length then
                      parseLoop data (i + 3 + d + 2) width height
                    else
                      parseLoop data (i + 3 + d) width height
                else
                  match skipToSE data (i + 3) with
                  | none => none
                  | some d =>
                    if i + 3 + d + 1 < data.length then
                      parseLoop data (i + 3 + d + 2) width height
                    else
                      parseLoop data (i + 3 + d) width height
          else
            parseLoop data (i + 3) width height
      else
        parseLoop data (i + 1) width height
  else
    some (false, width, height)
termination_by data.length - i
decreasing_by all_goals omega

/-- Entry point of `parse_telnet_commands` (`src/telnet.rs`): scan the
whole buffer starting at cursor 0. -/
def parse_telnet_commands (data : List Nat) (width height : Nat) :
    Option (Bool × Nat × Nat) :=
  parseLoop data 0 width height

/-- The client dimensions that `handle_telnet_client`
(`src/telnet.rs`, lines 38-57) ends up with after one read: the
defaults 80×24, replaced by whatever `parse_telnet_commands` leaves in
`client_width`/`client_height` when it reports completion. -/
def telnetClientDims (data : List Nat) : Nat × Nat :=
  match parse_telnet_commands data 80 24 with
  | some (_, w, h) => (w, h)
  | none => (80, 24)

/-- Viewport of a frame: `RenderSize { min_col, max_col, min_row,
max_row }` with half-open ranges, as destructured throughout
`src/standalone.rs` and `src/telnet.rs`. -/
structure RenderSize where
  min_col : Nat
  max_col : Nat
  min_row : Nat
  max_row : Nat
  deriving Repr, DecidableEq

/-- Modelled from the spec: `RenderSize::new` lives in the `animation`
module, which is absent from the sources; §4.2 of the specification
defines it, and the commented-out computation in `src/standalone.rs`
(`render_frame`, lines 133-139) matches it letter for letter:
`visibleCols = clientWidth / 2`;
`min_col = (frameWidth - visibleCols) / 2` with saturating subtraction,
`max_col = min_col + visibleCols`;
`min_row = (frameHeight - clientHeight) / 2` with saturating
subtraction, `max_row = min_row + (clientHeight - 1)`.
Natural-number subtraction is saturating, matching `saturating_sub`;
the frame dimensions are passed as parameters as in the §4.2 contract. -/
def RenderSize.new (frameWidth frameHeight clientWidth clientHeight : Nat) : RenderSize :=
  let visibleCols := clientWidth / 2
  let min_col := (frameWidth - visibleCols) / 2
  let max_col := min_col + visibleCols
  let min_row := (frameHeight - clientHeight) / 2
  let max_row := min_row + (clientHeight - 1)
  { min_col := min_col, max_col := max_col, min_row := min_row, max_row := max_row }

/-- The viewport a telnet session computes on each tick
(`src/telnet.rs`, line 73): `RenderSize::new(client_width,
client_height)` applied to the negotiated dimensions exactly as stored,
with no clamping or revalidation in between. -/
def telnetTickRenderSize (frameWidth frameHeight : Nat) (data : List Nat) : RenderSize :=
  RenderSize.new frameWidth frameHeight (telnetClientDims data).1 (telnetClientDims data).2

/-- The per-tick frame-index update `frame_idx = (frame_idx + 1) %
FRAMES.len()` (`src/standalone.rs` line 111, `src/telnet.rs` line 99),
with the animation length a parameter. -/
def nextFrameIdx (len idx : Nat) : Nat := (idx + 1) % len

/-- Iterate the per-tick update `nextFrameIdx` a given number of
times. -/
def iterFrames (len ticks idx : Nat) : Nat :=
  match ticks with
  | 0 => idx
  | t + 1 => iterFrames len t (nextFrameIdx len idx)

/-- The tick loop of `run_standalone` (`src/standalone.rs`, lines
52-112) restricted to its frame-limit control flow: each pass renders
one frame, then breaks if `args.frames` is `Some limit` and
`frame_idx >= limit`, else advances `frame_idx = (frame_idx + 1) %
FRAMES.len()`.  The result is the number of ticks executed before the
frame-limit break, `none` if the loop is still running when `fuel`
runs out (cancellation by key press is external to the model). -/
def standaloneLoop (frames : Option Nat) (len : Nat) (frame_idx : Nat) (fuel : Nat) :
    Option Nat :=
  match fuel with
  | 0 => none
  | fuel + 1 =>
    match frames with
    | some limit =>
      if limit ≤ frame_idx then
        some 1
      else
        match standaloneLoop frames len (nextFrameIdx len frame_idx) fuel with
        | none => none
        | some t => some (t + 1)
    | none =>
      match standaloneLoop frames len (nextFrameIdx len frame_idx) fuel with
      | none => none
      | some t => some (t + 1)

/-- The animation loop of `handle_telnet_client` (`src/telnet.rs`,
lines 60-100) restricted to the same control flow: it contains no
frame-limit check at all, so each pass just advances the frame index;
it exits only on transport errors, which are external to the model.
The result type matches `standaloneLoop`: the number of ticks executed
before a normal break (there is none), or `none` when `fuel` runs
out. -/
def telnetLoop (len : Nat) (frame_idx : Nat) (fuel : Nat) : Option Nat :=
  match fuel with
  | 0 => none
  | fuel + 1 =>
    match telnetLoop len (nextFrameIdx len frame_idx) fuel with
    | none => none
    | some t => some (t + 1)

/-- Websocket message status codes, from `src/http.rs` (`StatusCode`):
`Init = 0`, `Ok = 1`, `Error = 2`. -/
inductive WsCode where
  | Init : WsCode
  | Ok : WsCode
  | Error : WsCode
  deriving Repr, DecidableEq

/-- Websocket message frame, from `src/http.rs` (`MessageFrame`):
`{ code, width?, height?, frame? }`. -/
structure MessageFrame where
  code : WsCode
  width : Option Nat
  height : Option Nat
  frame : Option String
  deriving Repr, DecidableEq

/-- What the websocket session does with one message received while in
the `Init` state. -/
inductive WsAction where
  | ignore : WsAction
  | abortSession : WsAction
  | stream : Nat → Nat → WsAction
  deriving Repr, DecidableEq

/-- The `Init`-state message dispatch of `handle_socket`
(`src/http.rs`, lines 167-214): on `StatusCode::Ok` the handler
unwraps `msg.width` and `msg.height` with `ok_or_else(...)?`, so a
missing field propagates an error that ends the send task (the session
aborts); with both present it starts the streaming loop.  On
`StatusCode::Error` it bails out.  Every other code (`_ => continue`,
i.e. `Init`) is ignored and the loop waits for the next message. -/
def handleSocketInitStep (msg : MessageFrame) : WsAction :=
  match msg.code with
  | WsCode.Ok =>
    match msg.width with
    | none => WsAction.abortSession
    | some w =>
      match msg.height with
      | none => WsAction.abortSession
      | some h => WsAction.stream w h
  | WsCode.Error => WsAction.abortSession
  | WsCode.Init => WsAction.ignore

/-- Adjacent-pair scan: does the byte list contain an `IAC SE`
(255, 240) pair anywhere?  Used to express that a buffer carries no
sub-negotiation terminator. -/
def hasIacSe : List Nat → Bool
  | a :: b :: rest => (a == IAC && b == SE) || hasIacSe (b :: rest)
  | _ => false

/-! ## Supporting lemmas -/

theorem skipToSE_isSome (data : List Nat) (i : Nat) : (skipToSE data i).isSome := by
  induction i using skipToSE.induct data with
  | case1 x hx a b hb ha hab => rw [skipToSE]; simp [hx, ha, hb, hab]
  | case2 x hx a b hb ha hab hnone ih => rw [hnone] at ih; simp at ih
  | case3 x hx a b hb ha hab d hd ih => rw [skipToSE]; simp [hx, ha, hb, hab, hd]
  | case4 x hx hff =>
      have h1 : x < data.length := by omega
      exact absurd (hff _ _ (List.getElem?_eq_getElem h1) (List.getElem?_eq_getElem hx))
        (by simp)
  | case5 x hx => rw [skipToSE]; simp [hx]

theorem skipToSE_ne_none (data : List Nat) (i : Nat) : skipToSE data i ≠ none := by
  have hs := skipToSE_isSome data i
  intro hn
  rw [hn] at hs
  simp at hs

theorem parseLoop_isSome (data : List Nat) (i w h : Nat) : (parseLoop data i w h).isSome := by
  induction i, w, h using parseLoop.induct data with
  | case1 i w h hlt hnone =>
      rw [List.getElem?_eq_none_iff] at hnone; omega
  | case2 i w h hlt d hd hIAC hnone1 =>
      rw [List.getElem?_eq_none_iff] at hnone1; omega
  | case3 i w h hlt d hd hIAC hlen hSB =>
      rw [parseLoop]; simp [hlt, hd, hIAC, hlen, hSB]
  | case4 i w h hlt d hd hIAC hlen hnone2 hSB =>
      rw [List.getElem?_eq_none_iff] at hnone2; omega
  | case5 i w h hlt d hd hIAC hlen h7 b0 b1 b2 b3 h6 h5 h4 h3 hskip hSB hNAWS =>
      exact absurd hskip (skipToSE_ne_none data (i + 7))
  | case6 i w h hlt d hd hIAC hlen h7 b0 b1 b2 b3 h6 h5 h4 h3 e hskip hSB hNAWS =>
      rw [parseLoop]; simp [hlt, hd, hIAC, hlen, h7, hSB, hNAWS, h3, h4, h5, h6, hskip]
  | case7 i w h hlt d hd hIAC hlen h7 hff hSB hNAWS =>
      exact absurd (hff _ _ _ _ (List.getElem?_eq_getElem (by omega))
        (List.getElem?_eq_getElem (by omega)) (List.getElem?_eq_getElem (by omega))
        (List.getElem?_eq_getElem (by omega))) id
  | case8 i w h hlt d hd hIAC hlen h7n hSB hNAWS ih =>
      rw [parseLoop]; simpa [hlt, hd, hIAC, hlen, h7n, hSB, hNAWS] using ih
  | case9 i w h hlt d hd hIAC hlen hskip hSB hTT hTN =>
      exact absurd hskip (skipToSE_ne_none data (i + 3))
  | case10 i w h hlt d hd hIAC hlen e hskip hin hSB hTT hTN ih =>
      rw [parseLoop]; simpa [hlt, hd, hIAC, hlen, hSB, hTT, hTN, hskip, hin] using ih
  | case11 i w h hlt d hd hIAC hlen e hskip hnin hSB hTT hTN ih =>
      rw [parseLoop]; simpa [hlt, hd, hIAC, hlen, hSB, hTT, hTN, hskip, hnin] using ih
  | case12 i w h hlt d hd hIAC hlen o ho hoN hoT hskip hSB =>
      exact absurd hskip (skipToSE_ne_none data (i + 3))
  | case13 i w h hlt d hd hIAC hlen o ho hoN hoT e hskip hin hSB ih =>
      rw [parseLoop]; simpa [hlt, hd, hIAC, hlen, hSB, ho, hoN, hoT, hskip, hin] using ih
  | case14 i w h hlt d hd hIAC hlen o ho hoN hoT e hskip hnin hSB ih =>
      rw [parseLoop]; simpa [hlt, hd, hIAC, hlen, hSB, ho, hoN, hoT, hskip, hnin] using ih
  | case15 i w h hlt d hd hIAC c hc hcSB ih =>
      rw [parseLoop]; simpa [hlt, hd, hIAC, hc, hcSB] using ih
  | case16 i w h hlt d hd hnIAC ih =>
      rw [parseLoop]; simpa [hlt, hd, hnIAC] using ih
  | case17 i w h hnlt =>
      rw [parseLoop]; simp [hnlt]

theorem parseLoop_false_eq (data : List Nat) (i w h : Nat) :
    ∀ w2 h2, parseLoop data i w h = some (false, w2, h2) → w2 = w ∧ h2 = h := by
  induction i, w, h using parseLoop.induct data with
  | case1 i w h hlt hnone =>
      rw [List.getElem?_eq_none_iff] at hnone; omega
  | case2 i w h hlt d hd hIAC hnone1 =>
      rw [List.getElem?_eq_none_iff] at hnone1; omega
  | case3 i w h hlt d hd hIAC hlen hSB =>
      intro w2 h2 heq
      rw [parseLoop] at heq
      simp [hlt, hd, hIAC, hlen, hSB] at heq
      exact ⟨heq.1.symm, heq.2.symm⟩
  | case4 i w h hlt d hd hIAC hlen hnone2 hSB =>
      rw [List.getElem?_eq_none_iff] at hnone2; omega
  | case5 i w h hlt d hd hIAC hlen h7 b0 b1 b2 b3 h6 h5 h4 h3 hskip hSB hNAWS =>
      exact absurd hskip (skipToSE_ne_none data (i + 7))
  | case6 i w h hlt d hd hIAC hlen h7 b0 b1 b2 b3 h6 h5 h4 h3 e hskip hSB hNAWS =>
      intro w2 h2 heq
      rw [parseLoop] at heq
      simp [hlt, hd, hIAC, hlen, h7, hSB, hNAWS, h3, h4, h5, h6, hskip] at heq
  | case7 i w h hlt d hd hIAC hlen h7 hff hSB hNAWS =>
      exact absurd (hff _ _ _ _ (List.getElem?_eq_getElem (by omega))
        (List.getElem?_eq_getElem (by omega)) (List.getElem?_eq_getElem (by omega))
        (List.getElem?_eq_getElem (by omega))) id
  | case8 i w h hlt d hd hIAC hlen h7n hSB hNAWS ih =>
      intro w2 h2 heq
      rw [parseLoop] at heq
      simp [hlt, hd, hIAC, hlen, h7n, hSB, hNAWS] at heq
      exact ih w2 h2 heq
  | case9 i w h hlt d hd hIAC hlen hskip hSB hTT hTN =>
      exact absurd hskip (skipToSE_ne_none data (i + 3))
  | case10 i w h hlt d hd hIAC hlen e hskip hin hSB hTT hTN ih =>
      intro w2 h2 heq
      rw [parseLoop] at heq
      simp [hlt, hd, hIAC, hlen, hSB, hTT, hTN, hskip, hin] at heq
      exact ih w2 h2 heq
  | case11 i w h hlt d hd hIAC hlen e hskip hnin hSB hTT hTN ih =>
      intro w2 h2 heq
      rw [parseLoop] at heq
      simp [hlt, hd, hIAC, hlen, hSB, hTT, hTN, hskip, hnin] at heq
      exact ih w2 h2 heq
  | case12 i w h hlt d hd hIAC hlen o ho hoN hoT hskip hSB =>
      exact absurd hskip (skipToSE_ne_none data (i + 3))
  | case13 i w h hlt d hd hIAC hlen o ho hoN hoT e hskip hin hSB ih =>
      intro w2 h2 heq
      rw [parseLoop] at heq
      simp [hlt, hd, hIAC, hlen, hSB, ho, hoN, hoT, hskip, hin] at heq
      exact ih w2 h2 heq
  | case14 i w h hlt d hd hIAC hlen o ho hoN hoT e hskip hnin hSB ih =>
      intro w2 h2 heq
      rw [parseLoop] at heq
      simp [hlt, hd, hIAC, hlen, hSB, ho, hoN, hoT, hskip, hnin] at heq
      exact ih w2 h2 heq
  | case15 i w h hlt d hd hIAC c hc hcSB ih =>
      intro w2 h2 heq
      rw [parseLoop] at heq
      simp [hlt, hd, hIAC, hc, hcSB] at heq
      exact ih w2 h2 heq
  | case16 i w h hlt d hd hnIAC ih =>
      intro w2 h2 heq
      rw [parseLoop] at heq
      simp [hlt, hd, hnIAC] at heq
      exact ih w2 h2 heq
  | case17 i w h hnlt =>
      intro w2 h2 heq
      rw [parseLoop] at heq
      simp [hnlt] at heq
      exact ⟨heq.1.symm, heq.2.symm⟩

theorem parseLoop_short (data : List Nat) (i w h : Nat) :
    data.length < i + 7 → parseLoop data i w h = some (false, w, h) := by
  induction i, w, h using parseLoop.induct data with
  | case1 i w h hlt hnone =>
      rw [List.getElem?_eq_none_iff] at hnone; omega
  | case2 i w h hlt d hd hIAC hnone1 =>
      rw [List.getElem?_eq_none_iff] at hnone1; omega
  | case3 i w h hlt d hd hIAC hlen hSB =>
      intro hshort
      rw [parseLoop]
      simp [hlt, hd, hIAC, hlen, hSB]
  | case4 i w h hlt d hd hIAC hlen hnone2 hSB =>
      rw [List.getElem?_eq_none_iff] at hnone2; omega
  | case5 i w h hlt d hd hIAC hlen h7 b0 b1 b2 b3 h6 h5 h4 h3 hskip hSB hNAWS =>
      exact absurd hskip (skipToSE_ne_none data (i + 7))
  | case6 i w h hlt d hd hIAC hlen h7 b0 b1 b2 b3 h6 h5 h4 h3 e hskip hSB hNAWS =>
      intro hshort
      omega
  | case7 i w h hlt d hd hIAC hlen h7 hff hSB hNAWS =>
      exact absurd (hff _ _ _ _ (List.getElem?_eq_getElem (by omega))
        (List.getElem?_eq_getElem (by omega)) (List.getElem?_eq_getElem (by omega))
        (List.getElem?_eq_getElem (by omega))) id
  | case8 i w h hlt d hd hIAC hlen h7n hSB hNAWS ih =>
      intro hshort
      rw [parseLoop]
      simp [hlt, hd, hIAC, hlen, h7n, hSB, hNAWS]
      exact ih (by omega)
  | case9 i w h hlt d hd hIAC hlen hskip hSB hTT hTN =>
      exact absurd hskip (skipToSE_ne_none data (i + 3))
  | case10 i w h hlt d hd hIAC hlen e hskip hin hSB hTT hTN ih =>
      intro hshort
      rw [parseLoop]
      simp [hlt, hd, hIAC, hlen, hSB, hTT, hTN, hskip, hin]
      exact ih (by omega)
  | case11 i w h hlt d hd hIAC hlen e hskip hnin hSB hTT hTN ih =>
      intro hshort
      rw [parseLoop]
      simp [hlt, hd, hIAC, hlen, hSB, hTT, hTN, hskip, hnin]
      exact ih (by omega)
  | case12 i w h hlt d hd hIAC hlen o ho hoN hoT hskip hSB =>
      exact absurd hskip (skipToSE_ne_none data (i + 3))
  | case13 i w h hlt d hd hIAC hlen o ho hoN hoT e hskip hin hSB ih =>
      intro hshort
      rw [parseLoop]
      simp [hlt, hd, hIAC, hlen, hSB, ho, hoN, hoT, hskip, hin]
      exact ih (by omega)
  | case14 i w h hlt d hd hIAC hlen o ho hoN hoT e hskip hnin hSB ih =>
      intro hshort
      rw [parseLoop]
      simp [hlt, hd, hIAC, hlen, hSB, ho, hoN, hoT, hskip, hnin]
      exact ih (by omega)
  | case15 i w h hlt d hd hIAC c hc hcSB ih =>
      intro hshort
      rw [parseLoop]
      simp [hlt, hd, hIAC, hc, hcSB]
      exact ih (by omega)
  | case16 i w h hlt d hd hnIAC ih =>
      intro hshort
      rw [parseLoop]
      simp [hlt, hd, hnIAC]
      exact ih (by omega)
  | case17 i w h hnlt =>
      intro hshort
      rw [parseLoop]
      simp [hnlt]

theorem parseLoop_naws_head (b0 b1 b2 b3 : Nat) (rest : List Nat) (w h : Nat) :
    parseLoop (255 :: 250 :: 31 :: b0 :: b1 :: b2 :: b3 :: rest) 0 w h
      = some (true, (b0 <<< 8) ||| b1, (b2 <<< 8) ||| b3) := by
  obtain ⟨d, hd⟩ := Option.isSome_iff_exists.mp
    (skipToSE_isSome (255 :: 250 :: 31 :: b0 :: b1 :: b2 :: b3 :: rest) 7)
  rw [parseLoop]
  simp [IAC, SB, NAWS, SE, TTYPE, hd]

theorem shiftLeft_or_eq_mul_add (hi lo : Nat) (h : lo < 256) :
    (hi <<< 8) ||| lo = hi * 256 + lo := by
  have h2 : lo < 2 ^ 8 := by omega
  rw [Nat.shiftLeft_eq, Nat.mul_comm hi (2 ^ 8), ← Nat.mul_add_lt_is_or h2 hi]

theorem telnetLoop_none (len : Nat) : ∀ fuel k, telnetLoop len k fuel = none := by
  intro fuel
  induction fuel with
  | zero => intro k; rfl
  | succ fuel ih => intro k; simp [telnetLoop, ih]

theorem standaloneLoop_limit_lt (N L : Nat) (hNL : N < L) :
    ∀ fuel k, k ≤ N → N - k < fuel → standaloneLoop (some N) L k fuel = some (N - k + 1) := by
  intro fuel
  induction fuel with
  | zero => intro k hk hf; omega
  | succ fuel ih =>
      intro k hk hf
      by_cases hkN : N ≤ k
      · have hEq : k = N := by omega
        subst hEq
        simp [standaloneLoop]
      · have hlt : k + 1 < L := by omega
        have hnext : nextFrameIdx L k = k + 1 := by
          simp [nextFrameIdx, Nat.mod_eq_of_lt hlt]
        have hrec := ih (k + 1) (by omega) (by omega)
        rw [standaloneLoop]
        simp only [hnext, hrec, hkN, if_false, if_neg hkN]
        have : N - (k + 1) + 1 + 1 = N - k + 1 := by omega
        rw [this]

theorem standaloneLoop_limit_ge (N L : Nat) (hL : 0 < L) (hLN : L ≤ N) :
    ∀ fuel k, k < L → standaloneLoop (some N) L k fuel = none := by
  intro fuel
  induction fuel with
  | zero => intro k _; rfl
  | succ fuel ih =>
      intro k hk
      have hnk : ¬N ≤ k := by omega
      simp [standaloneLoop, hnk, ih (nextFrameIdx L k) (Nat.mod_lt _ hL)]

theorem iterFrames_add_mod (N : Nat) (hN : 0 < N) :
    ∀ k i, i < N → iterFrames N k i = (i + k) % N := by
  intro k
  induction k with
  | zero => intro i hi; simp [iterFrames, Nat.mod_eq_of_lt hi]
  | succ k ih =>
      intro i hi
      have h1 : (i + 1) % N < N := Nat.mod_lt _ hN
      rw [iterFrames, nextFrameIdx, ih _ h1, Nat.mod_add_mod]
      congr 1
      omega

/-! ## Claim theorems -/

/-- C1, counterexample: at frame size 80×24 and client size 200×30
(client height ≥ 1), the §4.2 viewport has `max_col = 100 > 80` and
`max_row = 29 > 24`, so the claimed invariant
`min_col ≤ max_col ≤ frameWidth ∧ min_row ≤ max_row ≤ frameHeight`
fails. -/
theorem viewport_invariant_counterexample :
    1 ≤ 30
      ∧ ¬(0 ≤ (RenderSize.new 80 24 200 30).min_col
          ∧ (RenderSize.new 80 24 200 30).min_col ≤ (RenderSize.new 80 24 200 30).max_col
          ∧ (RenderSize.new 80 24 200 30).max_col ≤ 80
          ∧ 0 ≤ (RenderSize.new 80 24 200 30).min_row
          ∧ (RenderSize.new 80 24 200 30).min_row ≤ (RenderSize.new 80 24 200 30).max_row
          ∧ (RenderSize.new 80 24 200 30).max_row ≤ 24) := by
  decide

/-- C1, amended: for every frame size and client size with
`clientHeight ≥ 1`, the viewport of §4.2 (`RenderSize.new`) satisfies
`0 ≤ min_col ≤ max_col` and `0 ≤ min_row ≤ max_row` unconditionally;
the upper bounds `max_col ≤ frameWidth` and `max_row ≤ frameHeight`
hold under the additional hypotheses `clientWidth / 2 ≤ frameWidth`
and `clientHeight ≤ frameHeight + 1` that the counterexample forces. -/
theorem viewport_invariant_amended (fw fh cw ch : Nat) (hch : 1 ≤ ch)
    (hcols : cw / 2 ≤ fw) (hrows : ch ≤ fh + 1) :
    0 ≤ (RenderSize.new fw fh cw ch).min_col
      ∧ (RenderSize.new fw fh cw ch).min_col ≤ (RenderSize.new fw fh cw ch).max_col
      ∧ (RenderSize.new fw fh cw ch).max_col ≤ fw
      ∧ 0 ≤ (RenderSize.new fw fh cw ch).min_row
      ∧ (RenderSize.new fw fh cw ch).min_row ≤ (RenderSize.new fw fh cw ch).max_row
      ∧ (RenderSize.new fw fh cw ch).max_row ≤ fh := by
  simp only [RenderSize.new]
  refine ⟨by omega, by omega, by omega, by omega, by omega, by omega⟩

/-- Witness for C1's amended theorem at frame 80×24, client 80×24. -/
theorem viewport_invariant_witness :
    (1 ≤ 24 ∧ (80 : Nat) / 2 ≤ 80 ∧ 24 ≤ 24 + 1)
      ∧ (0 ≤ (RenderSize.new 80 24 80 24).min_col
          ∧ (RenderSize.new 80 24 80 24).min_col ≤ (RenderSize.new 80 24 80 24).max_col
          ∧ (RenderSize.new 80 24 80 24).max_col ≤ 80
          ∧ 0 ≤ (RenderSize.new 80 24 80 24).min_row
          ∧ (RenderSize.new 80 24 80 24).min_row ≤ (RenderSize.new 80 24 80 24).max_row
          ∧ (RenderSize.new 80 24 80 24).max_row ≤ 24) :=
  ⟨⟨by decide, by decide, by decide⟩,
   viewport_invariant_amended 80 24 80 24 (by decide) (by decide) (by decide)⟩

/-- C2, counterexample: with frame width 10 and client width 40 we have
`floor(clientWidth / 2) = 20 ≥ 10`, but `max_col = 20 ≠ 10 = frameWidth`,
so "min_col = 0 and max_col = frameWidth" fails. -/
theorem centering_counterexample :
    (10 : Nat) ≤ 40 / 2
      ∧ ¬((RenderSize.new 10 24 40 24).min_col = 0
          ∧ (RenderSize.new 10 24 40 24).max_col = 10) := by
  decide

/-- C2, amended: if `floor(clientWidth / 2) ≥ frameWidth` then
`min_col = 0` and `max_col = floor(clientWidth / 2)`, which is at least
`frameWidth` — every frame column is inside the viewport (no clipping),
but `max_col` equals the visible column count, not `frameWidth`. -/
theorem centering_amended (fw fh cw ch : Nat) (hcw : fw ≤ cw / 2) :
    (RenderSize.new fw fh cw ch).min_col = 0
      ∧ (RenderSize.new fw fh cw ch).max_col = cw / 2
      ∧ fw ≤ (RenderSize.new fw fh cw ch).max_col := by
  simp only [RenderSize.new]
  refine ⟨by omega, by omega, by omega⟩

/-- Witness for C2's amended theorem at frame width 10, client width 40. -/
theorem centering_witness :
    (10 : Nat) ≤ 40 / 2
      ∧ ((RenderSize.new 10 24 40 24).min_col = 0
          ∧ (RenderSize.new 10 24 40 24).max_col = 40 / 2
          ∧ 10 ≤ (RenderSize.new 10 24 40 24).max_col) :=
  ⟨by decide, centering_amended 10 24 40 24 (by decide)⟩

/-- C3: the code does not stop after exactly N ticks.  In standalone
mode with `frames = 1` and a 2-frame animation the loop runs 2 ticks
(frames 0 and 1) before the `frame_idx >= limit` break fires; with
`frames = 2` (= animation length) the wrapped `frame_idx` never reaches
the limit and the loop never terminates through it; and the telnet
animation loop contains no frame-limit check at all, so it never
terminates through the limit for any fuel. -/
theorem frame_limit_code_behavior :
    standaloneLoop (some 1) 2 0 10 = some 2
      ∧ (∀ fuel, standaloneLoop (some 2) 2 0 fuel = none)
      ∧ (∀ len fuel k, telnetLoop len k fuel = none) := by
  refine ⟨by decide, ?_, ?_⟩
  · intro fuel
    exact standaloneLoop_limit_ge 2 2 (by decide) (by decide) fuel 0 (by decide)
  · intro len fuel k
    exact telnetLoop_none len fuel k

/-- C4: a correctly framed `IAC SB NAWS wHi wLo hHi hLo IAC SE` buffer
makes `parse_telnet_commands` report completion with
`width = wHi * 256 + wLo` and `height = hHi * 256 + hLo`. -/
theorem naws_roundtrip (wHi wLo hHi hLo w0 h0 : Nat) (_h1 : wHi < 256)
    (h2 : wLo < 256) (_h3 : hHi < 256) (h4 : hLo < 256) :
    parse_telnet_commands [255, 250, 31, wHi, wLo, hHi, hLo, 255, 240] w0 h0
      = some (true, wHi * 256 + wLo, hHi * 256 + hLo) := by
  have hhead := parseLoop_naws_head wHi wLo hHi hLo [255, 240] w0 h0
  rw [parse_telnet_commands]
  rw [show ([255, 250, 31, wHi, wLo, hHi, hLo, 255, 240] : List Nat)
      = 255 :: 250 :: 31 :: wHi :: wLo :: hHi :: hLo :: [255, 240] from rfl]
  rw [hhead, shiftLeft_or_eq_mul_add wHi wLo h2, shiftLeft_or_eq_mul_add hHi hLo h4]

/-- Witness for C4 at width 120 = (0, 120), height 40 = (0, 40). -/
theorem naws_roundtrip_witness :
    ((0 : Nat) < 256 ∧ (120 : Nat) < 256 ∧ (40 : Nat) < 256)
      ∧ parse_telnet_commands [255, 250, 31, 0, 120, 0, 40, 255, 240] 80 24
          = some (true, 120, 40) := by
  refine ⟨⟨by decide, by decide, by decide⟩, ?_⟩
  have hres := naws_roundtrip 0 120 0 40 80 24 (by decide) (by decide) (by decide) (by decide)
  simpa using hres

/-- C5: `parse_telnet_commands` never reads past the end of the buffer
(every instrumented access succeeds, for every input buffer), and a
NAWS sub-negotiation truncated to fewer than 4 payload bytes before
buffer end returns incomplete with the outputs untouched. -/
theorem parse_never_oob_truncated_incomplete :
    (∀ data w h, (parse_telnet_commands data w h).isSome)
      ∧ (∀ payload w h, payload.length < 4 →
          parse_telnet_commands (255 :: 250 :: 31 :: payload) w h = some (false, w, h)) := by
  constructor
  · intro data w h
    exact parseLoop_isSome data 0 w h
  · intro payload w h hp
    rw [parse_telnet_commands]
    exact parseLoop_short _ 0 w h (by simp; omega)

/-- Witness for C5: a complete buffer parses to `some`, and the
truncated NAWS buffer `IAC SB NAWS 0 9` returns incomplete with the
outputs still 80 and 24. -/
theorem parse_never_oob_witness :
    (parse_telnet_commands [255, 251, 3] 80 24).isSome
      ∧ ([0, 9] : List Nat).length < 4
      ∧ parse_telnet_commands (255 :: 250 :: 31 :: [0, 9]) 80 24 = some (false, 80, 24) :=
  ⟨parse_never_oob_truncated_incomplete.1 [255, 251, 3] 80 24, by decide,
   parse_never_oob_truncated_incomplete.2 [0, 9] 80 24 (by decide)⟩

/-- C6: whenever `parse_telnet_commands` returns incomplete (`false`),
the width and height outputs still hold the values they were called
with — they are written only on a complete 4-byte NAWS payload, and
then both together. -/
theorem parse_incomplete_outputs_unchanged (data : List Nat) (w h w2 h2 : Nat)
    (heq : parse_telnet_commands data w h = some (false, w2, h2)) :
    w2 = w ∧ h2 = h :=
  parseLoop_false_eq data 0 w h w2 h2 heq

/-- Witness for C6 on the plain-text buffer `[1, 2, 3]` with initial
outputs 80 and 24. -/
theorem parse_incomplete_outputs_unchanged_witness :
    parse_telnet_commands [1, 2, 3] 80 24 = some (false, 80, 24) ∧ (80 = 80 ∧ 24 = 24) := by
  have hx : parse_telnet_commands [1, 2, 3] 80 24 = some (false, 80, 24) := by
    rw [parse_telnet_commands]
    exact parseLoop_short [1, 2, 3] 0 80 24 (by simp)
  exact ⟨hx, parse_incomplete_outputs_unchanged [1, 2, 3] 80 24 80 24 hx⟩

/-- C7: a buffer that opens with `IAC SB NAWS` followed by at least 4
payload bytes is reported complete with the decoded dimensions even
when the sub-negotiation terminator pair `IAC SE` occurs nowhere in the
buffer — the parser does not wait for it. -/
theorem naws_complete_without_terminator (b0 b1 b2 b3 : Nat) (rest : List Nat)
    (w h : Nat) (_h0 : b0 < 256) (h1 : b1 < 256) (_h2 : b2 < 256) (h3 : b3 < 256)
    (_hnose : hasIacSe (255 :: 250 :: 31 :: b0 :: b1 :: b2 :: b3 :: rest) = false) :
    parse_telnet_commands (255 :: 250 :: 31 :: b0 :: b1 :: b2 :: b3 :: rest) w h
      = some (true, b0 * 256 + b1, b2 * 256 + b3) := by
  rw [parse_telnet_commands, parseLoop_naws_head,
    shiftLeft_or_eq_mul_add b0 b1 h1, shiftLeft_or_eq_mul_add b2 b3 h3]

/-- Witness for C7: `IAC SB NAWS 0 120 0 40` with no terminator
anywhere still decodes to width 120, height 40. -/
theorem naws_complete_without_terminator_witness :
    hasIacSe (255 :: 250 :: 31 :: 0 :: 120 :: 0 :: 40 :: []) = false
      ∧ parse_telnet_commands (255 :: 250 :: 31 :: 0 :: 120 :: 0 :: 40 :: []) 80 24
          = some (true, 120, 40) := by
  refine ⟨by decide, ?_⟩
  have hres := naws_complete_without_terminator 0 120 0 40 [] 80 24
    (by decide) (by decide) (by decide) (by decide) (by decide)
  simpa using hres

/-- C8, counterexample: an `Ok` message with no width and no height is
neither an `Error` message nor an `Ok` message carrying width and
height, yet the `Init`-state handler does not ignore it — the
`ok_or_else(...)?` unwrap aborts the session. -/
theorem ws_init_dispatch_counterexample :
    (MessageFrame.mk WsCode.Ok none none none).code ≠ WsCode.Error
      ∧ ¬((MessageFrame.mk WsCode.Ok none none none).code = WsCode.Ok
          ∧ (MessageFrame.mk WsCode.Ok none none none).width.isSome
          ∧ (MessageFrame.mk WsCode.Ok none none none).height.isSome)
      ∧ handleSocketInitStep (MessageFrame.mk WsCode.Ok none none none)
          = WsAction.abortSession := by
  refine ⟨by decide, by decide, rfl⟩

/-- C8, amended: in the `Init` state, a message is ignored exactly when
its code is `Init`; an `Error` message aborts the session; an `Ok`
message carrying both width and height starts streaming with those
dimensions; and an `Ok` message missing width or height also aborts
the session rather than being ignored. -/
theorem ws_init_dispatch_amended (m : MessageFrame) :
    (handleSocketInitStep m = WsAction.ignore ↔ m.code = WsCode.Init)
      ∧ (m.code = WsCode.Error → handleSocketInitStep m = WsAction.abortSession)
      ∧ (∀ w h, m.code = WsCode.Ok → m.width = some w → m.height = some h →
          handleSocketInitStep m = WsAction.stream w h)
      ∧ (m.code = WsCode.Ok → (m.width = none ∨ m.height = none) →
          handleSocketInitStep m = WsAction.abortSession) := by
  obtain ⟨c, ow, oh, f⟩ := m
  cases c <;> cases ow <;> cases oh <;> simp [handleSocketInitStep]

/-- Witness for C8's amended theorem: an `Ok` message carrying
width 100 and height 30 starts streaming at those dimensions. -/
theorem ws_init_dispatch_witness :
    handleSocketInitStep (MessageFrame.mk WsCode.Ok (some 100) (some 30) none)
      = WsAction.stream 100 30 :=
  (ws_init_dispatch_amended (MessageFrame.mk WsCode.Ok (some 100) (some 30) none)).2.2.1
    100 30 rfl rfl rfl

/-- C9: for an animation of length N ≥ 1 and any starting index i < N,
applying the per-tick update `frame_idx = (frame_idx + 1) % N` exactly
N times returns the frame index to i. -/
theorem frame_index_cycle (N i : Nat) (hN : 0 < N) (hi : i < N) :
    iterFrames N N i = i := by
  rw [iterFrames_add_mod N hN N i hi, Nat.add_mod_right, Nat.mod_eq_of_lt hi]

/-- Witness for C9 with a 12-frame animation starting at index 5. -/
theorem frame_index_cycle_witness :
    (0 < 12 ∧ 5 < 12) ∧ iterFrames 12 12 5 = 5 :=
  ⟨⟨by decide, by decide⟩, frame_index_cycle 12 5 (by decide) (by decide)⟩

/-- C10: a well-formed NAWS sub-negotiation with all-zero payload makes
`parse_telnet_commands` report completion with width 0 and height 0,
and the telnet handler then feeds exactly those zero dimensions into
the per-tick viewport computation, with no clamping or revalidation. -/
theorem naws_zero_dims_unclamped :
    parse_telnet_commands [255, 250, 31, 0, 0, 0, 0, 255, 240] 80 24 = some (true, 0, 0)
      ∧ telnetClientDims [255, 250, 31, 0, 0, 0, 0, 255, 240] = (0, 0)
      ∧ ∀ fw fh, telnetTickRenderSize fw fh [255, 250, 31, 0, 0, 0, 0, 255, 240]
          = RenderSize.new fw fh 0 0 := by
  have hp : parse_telnet_commands [255, 250, 31, 0, 0, 0, 0, 255, 240] 80 24
      = some (true, 0, 0) := by
    rw [parse_telnet_commands]
    rw [show ([255, 250, 31, 0, 0, 0, 0, 255, 240] : List Nat)
        = 255 :: 250 :: 31 :: 0 :: 0 :: 0 :: 0 :: [255, 240] from rfl]
    rw [parseLoop_naws_head]
    rfl
  refine ⟨hp, ?_, ?_⟩
  · simp [telnetClientDims, hp]
  · intro fw fh
    simp [telnetTickRenderSize, telnetClientDims, hp]
